import Mathlib

/-!
Shallow embedding of the invoice-extraction pipeline in `app.py`
(repository `ocr_invoices`), together with theorems checking the
natural-language specification against the code.

Modelling conventions:
* Python strings are Lean `String`s; per-character operations work on
  `String.toList`.
* The character repertoire modelled for case mapping and NFKD/ASCII
  folding is ASCII plus the Latin-1 accented letters that occur in
  French company names; other characters are left unchanged (case
  mapping) or dropped (ASCII encoding with `ignore`), as in Python.
* Python dicts (the workbook `sheets` mapping and `normalized_names`)
  are association lists with Python's update-in-place-or-append
  semantics (`dictGet` / `dictSet`).
* External effects (the model endpoint, `fitz` page rendering) are
  modelled by oracles / small result types; file and UI plumbing is
  outside the model, so `fill_excel_file` takes the loaded workbook as
  a parameter and returns the workbook that the final whole-workbook
  write persists.
-/

/-- Per-character uppercase map, modelling Python `str.upper()` on
ASCII letters (`a`..`z`, code points 97..122) and the Latin-1 accented
letters (`à`..`þ`, code points 224..254, excluding the division sign
247), which all uppercase by subtracting 32; every other character is
unchanged. (The two Latin-1 exceptions `ß` and `ÿ`, which Python maps
to `SS` and `Ÿ`, are outside the modelled repertoire and left
unchanged.) -/
def pyUpperChar (c : Char) : Char :=
  if (97 ≤ c.toNat ∧ c.toNat ≤ 122) ∨
     (224 ≤ c.toNat ∧ c.toNat ≤ 254 ∧ c.toNat ≠ 247) then
    Char.ofNat (c.toNat - 32)
  else c

/-- Per-character lowercase map for ASCII letters (`A`..`Z` shift down
by 32), modelling Python `str.lower()` on the ASCII strings it is
applied to in `normalize_excel_sheet_name` (the input there is already
ASCII-encoded). -/
def asciiShiftDown (c : Char) : Char :=
  if 65 ≤ c.toNat ∧ c.toNat ≤ 90 then Char.ofNat (c.toNat + 32) else c

/-- Models `unicodedata.normalize("NFKD", s).encode("ascii", "ignore").decode()`
character by character: ASCII characters are kept, Latin-1 accented
letters decompose to their base letter (the combining mark is dropped
by the ASCII encoding), and every other non-ASCII character is
dropped. -/
def nfkdAscii (c : Char) : Option Char :=
  if c.toNat < 128 then some c
  else if c = 'à' ∨ c = 'â' ∨ c = 'ä' then some 'a'
  else if c = 'ç' then some 'c'
  else if c = 'é' ∨ c = 'è' ∨ c = 'ê' ∨ c = 'ë' then some 'e'
  else if c = 'î' ∨ c = 'ï' then some 'i'
  else if c = 'ô' ∨ c = 'ö' then some 'o'
  else if c = 'ù' ∨ c = 'û' ∨ c = 'ü' then some 'u'
  else if c = 'À' ∨ c = 'Â' ∨ c = 'Ä' then some 'A'
  else if c = 'Ç' then some 'C'
  else if c = 'É' ∨ c = 'È' ∨ c = 'Ê' ∨ c = 'Ë' then some 'E'
  else if c = 'Î' ∨ c = 'Ï' then some 'I'
  else if c = 'Ô' ∨ c = 'Ö' then some 'O'
  else if c = 'Ù' ∨ c = 'Û' ∨ c = 'Ü' then some 'U'
  else none

/-- The characters removed by `sanitize_excel_sheet_name` via
`re.sub(r'[:\/\\\?\*\[\]\,]', "", name)`. -/
def forbiddenChars : List Char := [':', '/', '\\', '?', '*', '[', ']', ',']

/-- Models the regex character class `[^a-z0-9]` used (negated) by
`normalize_excel_sheet_name`: keep exactly lowercase ASCII letters and
digits. -/
def keepLowerAlnum (c : Char) : Bool :=
  decide (('a' ≤ c ∧ c ≤ 'z') ∨ ('0' ≤ c ∧ c ≤ '9'))

/-- Removal of the forbidden sheet-name characters (the `re.sub` step
of `sanitize_excel_sheet_name`). -/
def removeForbidden (s : String) : String :=
  ⟨s.toList.filter (fun c => decide (¬ c ∈ forbiddenChars))⟩

/-- Python `str.upper()` (per-character model). -/
def pyUpper (s : String) : String :=
  ⟨s.toList.map pyUpperChar⟩

/-- Python slicing `s[:31]`: the first 31 characters. -/
def truncate31 (s : String) : String :=
  ⟨s.toList.take 31⟩

/-- Embedding of `sanitize_excel_sheet_name` from `app.py`: remove the
forbidden characters, uppercase, truncate to 31 characters. -/
def sanitize_excel_sheet_name (name : String) : String :=
  ⟨((name.toList.filter (fun c => decide (¬ c ∈ forbiddenChars))).map pyUpperChar).take 31⟩

/-- Embedding of `normalize_excel_sheet_name` from `app.py`: NFKD
decompose and ASCII-encode with `ignore`, lowercase, then delete every
character that is not a lowercase ASCII letter or digit. -/
def normalize_excel_sheet_name (name : String) : String :=
  ⟨((name.toList.filterMap nfkdAscii).map asciiShiftDown).filter keepLowerAlnum⟩

/-- Splits a character list at `'/'` or `'-'` separators (the numeric
date shapes handled by the date-parsing model). -/
def splitFields : List Char → List (List Char)
  | [] => [[]]
  | c :: rest =>
    if c = '/' ∨ c = '-' then [] :: splitFields rest
    else
      match splitFields rest with
      | f :: fs => (c :: f) :: fs
      | [] => [[c]]

/-- Numeric value of a digit string. -/
def digitsVal (l : List Char) : Nat :=
  l.foldl (fun acc c => 10 * acc + (c.toNat - 48)) 0

/-- A nonempty all-digit field, or `none`. -/
def fieldNat? (l : List Char) : Option Nat :=
  if l ≠ [] ∧ l.all Char.isDigit = true then some (digitsVal l) else none

/-- Days in a month with Gregorian leap years. -/
def daysInMonth (y m : Nat) : Nat :=
  if m = 2 then (if (y % 4 = 0 ∧ y % 100 ≠ 0) ∨ y % 400 = 0 then 29 else 28)
  else if m = 4 ∨ m = 6 ∨ m = 9 ∨ m = 11 then 30 else 31

/-- Calendar validity of a (year, month, day) triple, with four-digit
years. -/
def validDate (y m d : Nat) : Bool :=
  decide (1 ≤ m ∧ m ≤ 12 ∧ 1 ≤ d ∧ d ≤ daysInMonth y m ∧ 1 ≤ y ∧ y ≤ 9999)

/-- Modelled from the spec: `dateutil.parser.parse(date_str, dayfirst=False)`
is a third-party library not part of this repository; this models its
standard numeric calendar-date grammar on `/`- or `-`-separated dates:
a leading four-digit field is a year (`YYYY-M-D`), otherwise the year
is the trailing four-digit field and the month is assumed first on
ambiguity (`dayfirst=False`); an unambiguous first field larger than
12 is taken as the day. Out-of-range components make the parse fail
(the library raises, the caller catches). Returns `(year, month, day)`. -/
def parseDate (s : String) : Option (Nat × Nat × Nat) :=
  match splitFields s.toList with
  | [f1, f2, f3] =>
    match fieldNat? f1, fieldNat? f2, fieldNat? f3 with
    | some a, some b, some c =>
      if f1.length = 4 then
        if validDate a b c then some (a, b, c) else none
      else if f3.length = 4 then
        let m := if 12 < a ∧ b ≤ 12 then b else a
        let d := if 12 < a ∧ b ≤ 12 then a else b
        if validDate c m d then some (c, m, d) else none
      else none
    | _, _, _ => none
  | _ => none

/-- The decimal digit character of `n % 10` (the zero-padded decimal
formatting used by `strftime`). -/
def digitChar (n : Nat) : Char :=
  match n % 10 with
  | 0 => '0' | 1 => '1' | 2 => '2' | 3 => '3' | 4 => '4'
  | 5 => '5' | 6 => '6' | 7 => '7' | 8 => '8' | _ => '9'

/-- `strftime("%d")` / `strftime("%m")`: two-digit zero-padded decimal. -/
def pad2 (n : Nat) : String :=
  ⟨[digitChar (n / 10), digitChar n]⟩

/-- `strftime("%Y")` for the four-digit years produced by the parser:
four-digit zero-padded decimal. -/
def pad4 (n : Nat) : String :=
  ⟨[digitChar (n / 1000), digitChar (n / 100), digitChar (n / 10), digitChar n]⟩

/-- Embedding of `to_french_date` from `app.py`: parse the date string
(`dayfirst=False`) and render it as `%d/%m/%Y`; on any parse failure
the exception is caught and the input string is returned unchanged. -/
def to_french_date (s : String) : String :=
  match parseDate s with
  | some (y, m, d) => pad2 d ++ "/" ++ pad2 m ++ "/" ++ pad4 y
  | none => s

/-- Recognizer for the `DD/MM/YYYY` shape: ten characters, digits in
the day, month and year positions, slashes between them. -/
def frenchShape (s : String) : Bool :=
  match s.toList with
  | [d1, d2, s1, m1, m2, s2, y1, y2, y3, y4] =>
    d1.isDigit && d2.isDigit && (s1 == '/') && m1.isDigit && m2.isDigit &&
    (s2 == '/') && y1.isDigit && y2.isDigit && y3.isDigit && y4.isDigit
  | _ => false

/-- A line item (`articles` array element of the extraction schema):
`reference` may be `null`, the other fields are required. Numeric
fields are modelled as integers. -/
structure Article where
  reference : Option String
  designation : String
  quantity : Int
  unit_price : Int
  total_price : Int
deriving DecidableEq

/-- The `invoice_reference` object of the extraction schema. -/
structure InvoiceRef where
  number : String
  date : String
deriving DecidableEq

/-- A parsed invoice dict as produced by a successful extraction call
(the strict schema guarantees all keys are present, so the `.get`
defaults in `fill_excel_file` are unreachable and the fields are
modelled as required). -/
structure InvoiceDict where
  company_name : String
  invoice_reference : InvoiceRef
  articles : List Article
deriving DecidableEq

/-- A spreadsheet cell value: a string, a number, or blank (`None`). -/
inductive Cell
  | s (v : String)
  | n (v : Int)
  | blank
deriving DecidableEq

/-- One worksheet: a header row (the pandas column labels) and data
rows. -/
structure Sheet where
  header : List String
  rows : List (List Cell)
deriving DecidableEq

/-- The workbook: Python's insertion-ordered dict from sheet title to
sheet. -/
abbrev Workbook := List (String × Sheet)

/-- The `normalized_names` dict from normalized key to sheet title. -/
abbrev NameMap := List (String × String)

/-- Python dict lookup `m.get(k)` / `k in m` on an association list. -/
def dictGet {α : Type} : List (String × α) → String → Option α
  | [], _ => none
  | (k', v) :: rest, k => if k' = k then some v else dictGet rest k

/-- Python dict assignment `m[k] = v`: update the existing entry in
place, or append a new one. -/
def dictSet {α : Type} : List (String × α) → String → α → List (String × α)
  | [], k, v => [(k, v)]
  | (k', v') :: rest, k, v =>
    if k' = k then (k, v) :: rest else (k', v') :: dictSet rest k v

/-- The fixed, order-significant column schema `COLUMNS` of
`fill_excel_file`. -/
def COLUMNS : List String :=
  ["N° FACTURE", "REF", "Article", "Quantité facturée", "Prix unitaire",
   "Total payé HT", "Stock entré en caisse", "Stock restant en caisse",
   "Boutique", "Casse ou échange"]

/-- The composite invoice label `f"{number} du {date}"` stamped on every
line-item row, with the date normalized by `to_french_date`. -/
def invoiceLabel (invoice : InvoiceDict) : String :=
  invoice.invoice_reference.number ++ " du " ++ to_french_date invoice.invoice_reference.date

/-- One data row of `fill_excel_file`: every column starts as `None`,
then the first six columns are filled from the invoice and the article
(a `null` article reference stays `None`); the four downstream
operational columns remain blank. -/
def mkRow (invoice_number : String) (a : Article) : List Cell :=
  [Cell.s invoice_number,
   (match a.reference with
    | some r => Cell.s r
    | none => Cell.blank),
   Cell.s a.designation,
   Cell.n a.quantity,
   Cell.n a.unit_price,
   Cell.n a.total_price,
   Cell.blank, Cell.blank, Cell.blank, Cell.blank]

/-- The blank separator row `[""] * len(df_existing.columns)` (the
columns have just been set to `COLUMNS` in both branches). -/
def sepRow : List Cell :=
  List.replicate COLUMNS.length (Cell.s "")

/-- `df_existing.columns = COLUMNS`: replace the header, keep the rows. -/
def withCols (sh : Sheet) : Sheet :=
  ⟨COLUMNS, sh.rows⟩

/-- `pd.concat([df_existing, empty_row, df_new], ignore_index=True)`:
the existing rows, the blank separator row, then one row per article
in order. -/
def mkDf (df_existing : Sheet) (invoice : InvoiceDict) : Sheet :=
  ⟨df_existing.header,
   df_existing.rows ++ [sepRow] ++ invoice.articles.map (mkRow (invoiceLabel invoice))⟩

/-- One iteration of the `for invoice in list_invoices_dict` loop of
`fill_excel_file`: resolve the worksheet through `normalized_names`
(hit: reuse the stored title and the existing sheet, whose header is
overwritten with `COLUMNS`; miss: sanitize the company name, register
the sanitized title under its own normalized key, start from an empty
sheet), then store the concatenated sheet. Returns the updated
workbook, the updated name map, and the resolved sheet title. The
`getD` default is unreachable from `fill_excel_file`, whose name map
only ever holds titles present in the workbook. -/
def fillStep (sheets : Workbook) (names : NameMap) (invoice : InvoiceDict) :
    Workbook × NameMap × String :=
  match dictGet names (normalize_excel_sheet_name invoice.company_name) with
  | some sheet_name =>
    (dictSet sheets sheet_name
       (mkDf (withCols ((dictGet sheets sheet_name).getD ⟨COLUMNS, []⟩)) invoice),
     names, sheet_name)
  | none =>
    (dictSet sheets (sanitize_excel_sheet_name invoice.company_name)
       (mkDf ⟨COLUMNS, []⟩ invoice),
     dictSet names
       (normalize_excel_sheet_name (sanitize_excel_sheet_name invoice.company_name))
       (sanitize_excel_sheet_name invoice.company_name),
     sanitize_excel_sheet_name invoice.company_name)

/-- The whole invoice loop of `fill_excel_file`, additionally recording
the resolved sheet title of each invoice in order (the trace makes the
per-invoice worksheet resolution observable). -/
def fillLoop : Workbook → NameMap → List InvoiceDict → Workbook × NameMap × List String
  | sheets, names, [] => (sheets, names, [])
  | sheets, names, inv :: rest =>
    let s := fillStep sheets names inv
    let r := fillLoop s.1 s.2.1 rest
    (r.1, r.2.1, s.2.2 :: r.2.2)

/-- The dict comprehension
`{normalize_excel_sheet_name(sheet_name): sheet_name for sheet_name in sheets}`. -/
def initNames (sheets : Workbook) : NameMap :=
  sheets.foldl (fun m p => dictSet m (normalize_excel_sheet_name p.1) p.1) []

/-- Embedding of the worksheet-merging core of `fill_excel_file`: the
workbook read from the uploaded file (empty if unreadable) is the
`initial` parameter, and the returned workbook is what the final
`pd.ExcelWriter` pass writes out sheet by sheet. -/
def fill_excel_file (invoices : List InvoiceDict) (initial : Workbook) : Workbook :=
  (fillLoop initial (initNames initial) invoices).1

/-- The resolved sheet title of each processed invoice, in order. -/
def fillTrace (invoices : List InvoiceDict) (initial : Workbook) : List String :=
  (fillLoop initial (initNames initial) invoices).2.2

/-- The name-map invariant of `fill_excel_file`: every entry maps the
normalized form of its sheet title to that title. -/
def namesNormalized (names : NameMap) : Prop :=
  ∀ k v, dictGet names k = some v → k = normalize_excel_sheet_name v

/-- Failure modes of one extraction attempt, all caught by the
`except Exception` of the retry loop: network/provider errors, a
response that fails JSON decoding, a schema-violating payload, or an
unexpected envelope shape (the explicit `TypeError`). -/
inductive ExtractError
  | network
  | malformedResponse
  | schemaViolation
  | unexpectedEnvelope
deriving DecidableEq

/-- Failure of `fitz.open` on an unreadable or corrupt document (the
exception is not caught inside `invoice_to_image`). -/
inductive DocError
  | openFailed
deriving DecidableEq

/-- An uploaded document as seen by `invoice_to_image`: unreadable
(`fitz.open` raises), a document whose page encoding fails (the inner
`try` returns `None`), or a readable document with base64 page images. -/
inductive Doc
  | corrupt
  | encodeFail
  | pages (imgs : List String)

/-- Embedding of `invoice_to_image` from `app.py`: `fitz.open` failures
propagate as errors; a base64-encoding failure is caught and makes the
function return `None` (`Option.none`); otherwise one
`data:image/jpeg;base64,...` URL per page is returned. -/
def invoice_to_image : Doc → Except DocError (Option (List String))
  | Doc.corrupt => Except.error DocError.openFailed
  | Doc.encodeFail => Except.ok none
  | Doc.pages imgs =>
    Except.ok (some (imgs.map (fun b => "data:image/jpeg;base64," ++ b)))

/-- The `for attempt in range(1, 4)` retry loop over a list of attempt
indices: the given attempt oracle is consulted in order; the first
success is kept and the loop breaks; each failure is logged (the
returned list collects the indices of logged failed attempts, in
order). -/
def runAttempts (attempts : Nat → Except ExtractError InvoiceDict) :
    List Nat → Option InvoiceDict × List Nat
  | [] => (none, [])
  | k :: ks =>
    match attempts k with
    | Except.ok v => (some v, [])
    | Except.error _ =>
      ((runAttempts attempts ks).1, k :: (runAttempts attempts ks).2)

/-- Embedding of the retry loop of the batch: `range(1, 4)` gives
attempts 1, 2 and 3. -/
def retryExtract (attempts : Nat → Except ExtractError InvoiceDict) :
    Option InvoiceDict × List Nat :=
  runAttempts attempts [1, 2, 3]

/-- A failure that escapes one iteration of the batch loop: the
uncaught `fitz.open` exception, or the `TypeError` raised by iterating
the `None` that `invoice_to_image` returns after an encoding failure. -/
inductive RunError
  | docError (e : DocError)
  | noneNotIterable
deriving DecidableEq

/-- One uploaded invoice together with the oracle giving the outcome of
its k-th extraction attempt (the model endpoint is external, so its
responses are an oracle parameter). -/
structure InvoiceJob where
  doc : Doc
  attempts : Nat → Except ExtractError InvoiceDict

/-- One iteration of the `for invoice in invoices` batch loop:
rendering failures propagate (nothing catches them), then the retry
loop runs; a `some` result is appended to the batch list, a `none`
(three failed attempts) contributes nothing. -/
def processInvoice (job : InvoiceJob) : Except RunError (Option InvoiceDict) :=
  match invoice_to_image job.doc with
  | Except.error e => Except.error (RunError.docError e)
  | Except.ok none => Except.error RunError.noneNotIterable
  | Except.ok (some _) => Except.ok (retryExtract job.attempts).1

/-- The whole batch loop building `list_invoices_dict`: invoices are
processed strictly in order, successful records are collected in
order, and any error escaping an iteration aborts the remainder of the
batch. -/
def processRun : List InvoiceJob → Except RunError (List InvoiceDict)
  | [] => Except.ok []
  | job :: rest =>
    match processInvoice job with
    | Except.error e => Except.error e
    | Except.ok r =>
      match processRun rest with
      | Except.error e => Except.error e
      | Except.ok rs =>
        Except.ok (match r with
          | some v => v :: rs
          | none => rs)

/-- A value of the request dict sent to the model endpoint. -/
inductive ReqValue
  | vStr (s : String)
  | vInt (n : Int)
  | vMessages (imageUrls : List String)
  | vTools (functionNames : List String)
  | vToolChoice (ty : String) (functionName : String)
deriving DecidableEq

/-- Embedding of the `data` request dict built in the batch loop of
`app.py`: model name, the user message with the page images, the tool
schema, the forced tool choice, and `temperature: 0`. These are all
the keys the code sets. -/
def requestData (imageUrls : List String) : List (String × ReqValue) :=
  [("model", ReqValue.vStr "gpt-4.1"),
   ("input", ReqValue.vMessages imageUrls),
   ("tools", ReqValue.vTools ["extract_invoice_data"]),
   ("tool_choice", ReqValue.vToolChoice "function" "extract_invoice_data"),
   ("temperature", ReqValue.vInt 0)]

/-- A sample article used by concrete witnesses. -/
def demoArticle : Article :=
  ⟨some "A1", "Widget", 2, 10, 20⟩

/-- A sample extracted invoice used by concrete witnesses. -/
def demoInvoice : InvoiceDict :=
  ⟨"ACME CORP", ⟨"F1", "03/14/2024"⟩, [demoArticle]⟩

/-- An attempt oracle whose every attempt fails with a network error. -/
def failAll : Nat → Except ExtractError InvoiceDict :=
  fun _ => Except.error ExtractError.network

/-- An attempt oracle failing on attempts 1 and 2 and succeeding on
attempt 3. -/
def failTwice : Nat → Except ExtractError InvoiceDict :=
  fun k => if k ≤ 2 then Except.error ExtractError.network else Except.ok demoInvoice

/-- An attempt oracle succeeding immediately. -/
def okNow : Nat → Except ExtractError InvoiceDict :=
  fun _ => Except.ok demoInvoice

/-- Evaluation of `Char.ofNat` below the surrogate range. -/
theorem toNat_ofNat_lt {n : Nat} (h : n < 55296) : (Char.ofNat n).toNat = n := by
  rw [Char.ofNat, dif_pos (Or.inl h)]
  rfl

/-- Every forbidden sheet-name character lies outside the uppercase
letter ranges 65..90 and 192..222. -/
theorem forbiddenChars_not_upper :
    ∀ x ∈ forbiddenChars,
      x.toNat < 65 ∨ (90 < x.toNat ∧ x.toNat < 192) ∨ 222 < x.toNat := by
  decide

/-- Uppercasing cannot introduce a forbidden sheet-name character. -/
theorem pyUpperChar_keeps_clean {c : Char} (h : ¬ c ∈ forbiddenChars) :
    ¬ pyUpperChar c ∈ forbiddenChars := by
  unfold pyUpperChar
  split_ifs with hc
  · intro hmem
    have hval : (Char.ofNat (c.toNat - 32)).toNat = c.toNat - 32 :=
      toNat_ofNat_lt (by omega)
    have hr := forbiddenChars_not_upper _ hmem
    rw [hval] at hr
    omega
  · exact h

/-- Claim C5: `sanitize_excel_sheet_name` returns a string of length at
most 31 that contains none of the characters `: / \ ? * [ ] ,` and
equals the input with those characters removed, then uppercased, then
truncated to 31 characters. -/
theorem sanitize_excel_sheet_name_spec (name : String) :
    (sanitize_excel_sheet_name name).length ≤ 31
  ∧ (∀ c, c ∈ (sanitize_excel_sheet_name name).toList → ¬ c ∈ forbiddenChars)
  ∧ sanitize_excel_sheet_name name = truncate31 (pyUpper (removeForbidden name)) := by
  refine ⟨?_, ?_, rfl⟩
  · show (((name.toList.filter _).map pyUpperChar).take 31).length ≤ 31
    rw [List.length_take]
    exact Nat.min_le_left _ _
  · intro c hc
    have hc' : c ∈ (name.toList.filter
        (fun c => decide (¬ c ∈ forbiddenChars))).map pyUpperChar :=
      List.take_subset 31 _ hc
    rcases List.mem_map.mp hc' with ⟨a, ha, rfl⟩
    have hp := (List.mem_filter.mp ha).2
    exact pyUpperChar_keeps_clean (of_decide_eq_true hp)

/-- Witness for C5 at concrete inputs: the no-forbidden-characters part
applied to a character of `sanitize_excel_sheet_name "a:b"`, and the
length bound at a 40-character name. -/
theorem sanitize_excel_sheet_name_spec_witness :
    ¬ 'A' ∈ forbiddenChars
  ∧ (sanitize_excel_sheet_name "ACME: CORP/2024 aaaaaaaaaaaaaaaaaaaaaaaa").length ≤ 31 :=
  ⟨(sanitize_excel_sheet_name_spec "a:b").2.1 'A' (by decide),
   (sanitize_excel_sheet_name_spec "ACME: CORP/2024 aaaaaaaaaaaaaaaaaaaaaaaa").1⟩

/-- Claim C6: the three spellings of the same company name normalize to
the same key. -/
theorem normalize_same_key_examples :
    normalize_excel_sheet_name "Société Générale" = normalize_excel_sheet_name "SOCIETE GENERALE"
  ∧ normalize_excel_sheet_name "SOCIETE GENERALE" = normalize_excel_sheet_name "societe-generale" :=
  ⟨rfl, rfl⟩

/-- The character produced by `digitChar` is always a decimal digit. -/
theorem digitChar_isDigit (n : Nat) : (digitChar n).isDigit = true := by
  unfold digitChar
  rcases n % 10 with _|_|_|_|_|_|_|_|_|_ <;> rfl

/-- Any day/month/year rendered through `pad2`/`pad4` has the
`DD/MM/YYYY` shape. -/
theorem frenchShape_format (y m d : Nat) :
    frenchShape (pad2 d ++ "/" ++ pad2 m ++ "/" ++ pad4 y) = true := by
  show frenchShape ⟨[digitChar (d / 10), digitChar d, '/',
                    digitChar (m / 10), digitChar m, '/',
                    digitChar (y / 1000), digitChar (y / 100),
                    digitChar (y / 10), digitChar y]⟩ = true
  simp [frenchShape, digitChar_isDigit]

/-- Claim C4: for every date string the parser accepts,
`to_french_date` returns the parsed day, month and year rendered as
`DD/MM/YYYY` (day first, zero-padded); for every string the parser
rejects, the input is returned exactly unchanged. (The embedding is a
total function: the `except` in the source means no exception ever
reaches the caller.) -/
theorem to_french_date_spec (s : String) :
    (∀ y m d, parseDate s = some (y, m, d) →
        to_french_date s = pad2 d ++ "/" ++ pad2 m ++ "/" ++ pad4 y
      ∧ frenchShape (to_french_date s) = true)
  ∧ (parseDate s = none → to_french_date s = s) := by
  constructor
  · intro y m d hp
    have h1 : to_french_date s = pad2 d ++ "/" ++ pad2 m ++ "/" ++ pad4 y := by
      unfold to_french_date
      rw [hp]
    exact ⟨h1, by rw [h1]; exact frenchShape_format y m d⟩
  · intro hp
    unfold to_french_date
    rw [hp]

/-- Witness for C4: the spec's example date `03/14/2024` (month first
on ambiguity) renders as `14/03/2024`, and an unparseable string
passes through unchanged. -/
theorem to_french_date_spec_witness :
    to_french_date "03/14/2024" = "14/03/2024"
  ∧ to_french_date "date inconnue" = "date inconnue" := by
  constructor
  · have h := ((to_french_date_spec "03/14/2024").1 2024 3 14 rfl).1
    rw [h]
    rfl
  · exact (to_french_date_spec "date inconnue").2 rfl

/-- Claim C3: the retry loop makes at most 3 attempts (its result
depends only on the outcomes of attempts 1, 2 and 3); when all three
attempts fail the failures are logged in order and the invoice
contributes no record; and a readable invoice whose three attempts all
fail leaves the batch result exactly the result of the remaining
invoices (the batch continues). -/
theorem retry_policy_spec :
    (∀ a b : Nat → Except ExtractError InvoiceDict,
        a 1 = b 1 → a 2 = b 2 → a 3 = b 3 → retryExtract a = retryExtract b)
  ∧ (∀ (a : Nat → Except ExtractError InvoiceDict) e1 e2 e3,
        a 1 = Except.error e1 → a 2 = Except.error e2 → a 3 = Except.error e3 →
        retryExtract a = (none, [1, 2, 3]))
  ∧ (∀ (imgs : List String) (a : Nat → Except ExtractError InvoiceDict)
        (rest : List InvoiceJob) e1 e2 e3,
        a 1 = Except.error e1 → a 2 = Except.error e2 → a 3 = Except.error e3 →
        processRun (⟨Doc.pages imgs, a⟩ :: rest) = processRun rest) := by
  refine ⟨?_, ?_, ?_⟩
  · intro a b h1 h2 h3
    simp [retryExtract, runAttempts, h1, h2, h3]
  · intro a e1 e2 e3 h1 h2 h3
    simp [retryExtract, runAttempts, h1, h2, h3]
  · intro imgs a rest e1 e2 e3 h1 h2 h3
    simp only [processRun, processInvoice, invoice_to_image, retryExtract, runAttempts,
      h1, h2, h3]
    cases hr : processRun rest <;> simp

/-- Witness for C3: an oracle failing all attempts yields no record
with failures 1, 2, 3 logged, and a one-invoice batch made of such a
job produces the empty record list. -/
theorem retry_policy_spec_witness :
    retryExtract failAll = (none, [1, 2, 3])
  ∧ processRun [⟨Doc.pages [], failAll⟩] = Except.ok [] := by
  constructor
  · exact retry_policy_spec.2.1 failAll ExtractError.network ExtractError.network
      ExtractError.network rfl rfl rfl
  · have h := retry_policy_spec.2.2 [] failAll [] ExtractError.network
      ExtractError.network ExtractError.network rfl rfl rfl
    rw [h]
    rfl

/-- Claim C8: an extraction that fails twice and succeeds on the third
attempt produces the same record as one that succeeds immediately with
the same successful response (retry transparency); three failures
produce no record and leave the rest of the batch unaffected. -/
theorem retry_transparency_spec :
    (∀ (a b : Nat → Except ExtractError InvoiceDict) r e1 e2,
        a 1 = Except.error e1 → a 2 = Except.error e2 → a 3 = Except.ok r →
        b 1 = Except.ok r →
        (retryExtract a).1 = some r ∧ (retryExtract b).1 = some r)
  ∧ (∀ (a : Nat → Except ExtractError InvoiceDict) e1 e2 e3,
        a 1 = Except.error e1 → a 2 = Except.error e2 → a 3 = Except.error e3 →
        (retryExtract a).1 = none)
  ∧ (∀ (imgs : List String) (a : Nat → Except ExtractError InvoiceDict)
        (rest : List InvoiceJob) e1 e2 e3,
        a 1 = Except.error e1 → a 2 = Except.error e2 → a 3 = Except.error e3 →
        processRun (⟨Doc.pages imgs, a⟩ :: rest) = processRun rest) := by
  refine ⟨?_, ?_, ?_⟩
  · intro a b r e1 e2 h1 h2 h3 hb
    constructor
    · simp [retryExtract, runAttempts, h1, h2, h3]
    · simp [retryExtract, runAttempts, hb]
  · intro a e1 e2 e3 h1 h2 h3
    simp [retryExtract, runAttempts, h1, h2, h3]
  · intro imgs a rest e1 e2 e3 h1 h2 h3
    simp only [processRun, processInvoice, invoice_to_image, retryExtract, runAttempts,
      h1, h2, h3]
    cases hr : processRun rest <;> simp

/-- Witness for C8: `failTwice` (two failures, then success with
`demoInvoice`) and `okNow` (immediate success with `demoInvoice`)
produce the same record. -/
theorem retry_transparency_spec_witness :
    (retryExtract failTwice).1 = some demoInvoice
  ∧ (retryExtract okNow).1 = some demoInvoice :=
  retry_transparency_spec.1 failTwice okNow demoInvoice ExtractError.network
    ExtractError.network rfl rfl rfl rfl

/-- Amended claim C2: an unreadable or corrupt invoice document makes
the batch loop raise an uncaught error, aborting the whole run — no
skip-and-continue happens. -/
theorem corrupt_doc_aborts_batch (jobs : List InvoiceJob)
    (h : ∃ j ∈ jobs, j.doc = Doc.corrupt) :
    ∃ e, processRun jobs = Except.error e := by
  induction jobs with
  | nil =>
    rcases h with ⟨j, hj, _⟩
    simp at hj
  | cons job rest ih =>
    rcases h with ⟨j, hj, hcor⟩
    rcases List.mem_cons.mp hj with rfl | hmem
    · refine ⟨RunError.docError DocError.openFailed, ?_⟩
      simp [processRun, processInvoice, hcor, invoice_to_image]
    · rcases ih ⟨j, hmem, hcor⟩ with ⟨e, he⟩
      cases hpi : processInvoice job with
      | error e' => exact ⟨e', by simp [processRun, hpi]⟩
      | ok r => exact ⟨e, by simp [processRun, hpi, he]⟩

/-- Witness for the amended C2 at a concrete one-document batch. -/
theorem corrupt_doc_aborts_batch_witness :
    ∃ e, processRun [⟨Doc.corrupt, failAll⟩] = Except.error e :=
  corrupt_doc_aborts_batch [⟨Doc.corrupt, failAll⟩]
    ⟨⟨Doc.corrupt, failAll⟩, List.mem_singleton.mpr rfl, rfl⟩

/-- Counterexample to claim C2 as stated: a batch whose first document
is corrupt and whose second is perfectly readable (its extraction
would succeed immediately) does not skip the corrupt invoice and
continue — the whole run aborts with the propagated open error, and
the second invoice's record is never produced. -/
theorem corrupt_doc_counterexample :
    processRun [⟨Doc.corrupt, failAll⟩, ⟨Doc.pages ["p1"], okNow⟩]
      = Except.error (RunError.docError DocError.openFailed) := rfl

/-- Amended claim C9: every request built by the batch loop pins
`temperature` to 0, but carries no nucleus-sampling (`top_p`) parameter
and no random seed — those two determinism controls are absent. -/
theorem request_fixed_params (imageUrls : List String) :
    dictGet (requestData imageUrls) "temperature" = some (ReqValue.vInt 0)
  ∧ dictGet (requestData imageUrls) "top_p" = none
  ∧ dictGet (requestData imageUrls) "seed" = none :=
  ⟨rfl, rfl, rfl⟩

/-- Counterexample to claim C9 as stated: the concrete request for an
empty page list fixes `temperature` at 0 but contains neither a
`top_p` key nor a `seed` key, so the claimed nucleus-sampling
parameter and fixed seed are not sent. -/
theorem request_no_sampling_controls_counterexample :
    dictGet (requestData []) "temperature" = some (ReqValue.vInt 0)
  ∧ dictGet (requestData []) "top_p" = none
  ∧ dictGet (requestData []) "seed" = none :=
  ⟨rfl, rfl, rfl⟩

/-- Reading back the key just written. -/
theorem dictGet_dictSet_self {α : Type} (m : List (String × α)) (k : String) (v : α) :
    dictGet (dictSet m k v) k = some v := by
  induction m with
  | nil => simp [dictSet, dictGet]
  | cons p rest ih =>
    by_cases h : p.1 = k
    · simp [dictSet, dictGet, h]
    · simp [dictSet, dictGet, h, ih]

/-- Writing one key does not change any other key. -/
theorem dictGet_dictSet_ne {α : Type} (m : List (String × α)) (k' k : String) (v : α)
    (h : k' ≠ k) : dictGet (dictSet m k' v) k = dictGet m k := by
  induction m with
  | nil => simp [dictSet, dictGet, h]
  | cons p rest ih =>
    by_cases hp : p.1 = k'
    · simp [dictSet, dictGet, hp, h]
    · simp only [dictSet, dictGet, if_neg hp]
      by_cases hk : p.1 = k
      · simp [dictGet, hk]
      · simp [dictGet, hk, ih]

/-- `fillStep` when the normalized company name hits the name map. -/
theorem fillStep_hit (sheets : Workbook) (names : NameMap) (inv : InvoiceDict)
    (sn : String)
    (h : dictGet names (normalize_excel_sheet_name inv.company_name) = some sn) :
    fillStep sheets names inv =
      (dictSet sheets sn (mkDf (withCols ((dictGet sheets sn).getD ⟨COLUMNS, []⟩)) inv),
       names, sn) := by
  unfold fillStep
  rw [h]

/-- `fillStep` when the normalized company name misses the name map. -/
theorem fillStep_miss (sheets : Workbook) (names : NameMap) (inv : InvoiceDict)
    (h : dictGet names (normalize_excel_sheet_name inv.company_name) = none) :
    fillStep sheets names inv =
      (dictSet sheets (sanitize_excel_sheet_name inv.company_name)
         (mkDf ⟨COLUMNS, []⟩ inv),
       dictSet names
         (normalize_excel_sheet_name (sanitize_excel_sheet_name inv.company_name))
         (sanitize_excel_sheet_name inv.company_name),
       sanitize_excel_sheet_name inv.company_name) := by
  unfold fillStep
  rw [h]

/-- Claim C7: processing one invoice stores, under the resolved sheet
title, exactly the resolved existing rows followed by one blank
separator row and then one data row per line item in order; the sheet
carries the fixed 10-column schema, every data row has 10 cells, its
first cell is the composite label `"<number> du <normalized date>"`,
and the four downstream-operational columns (indices 6..9) are blank. -/
theorem fill_step_append_spec (sheets : Workbook) (names : NameMap) (inv : InvoiceDict) :
    (∀ t old, dictGet names (normalize_excel_sheet_name inv.company_name) = some t →
        dictGet sheets t = some old →
        (fillStep sheets names inv).2.2 = t
      ∧ dictGet (fillStep sheets names inv).1 t =
          some ⟨COLUMNS, old.rows ++ [sepRow] ++ inv.articles.map (mkRow (invoiceLabel inv))⟩)
  ∧ (dictGet names (normalize_excel_sheet_name inv.company_name) = none →
        (fillStep sheets names inv).2.2 = sanitize_excel_sheet_name inv.company_name
      ∧ dictGet (fillStep sheets names inv).1 (sanitize_excel_sheet_name inv.company_name) =
          some ⟨COLUMNS, [sepRow] ++ inv.articles.map (mkRow (invoiceLabel inv))⟩)
  ∧ invoiceLabel inv =
      inv.invoice_reference.number ++ " du " ++ to_french_date inv.invoice_reference.date
  ∧ COLUMNS.length = 10
  ∧ sepRow = List.replicate 10 (Cell.s "")
  ∧ (∀ lbl a, (mkRow lbl a).length = 10
      ∧ (mkRow lbl a).get? 0 = some (Cell.s lbl)
      ∧ ∀ idx, 6 ≤ idx → idx ≤ 9 → (mkRow lbl a).get? idx = some Cell.blank) := by
  refine ⟨?_, ?_, rfl, rfl, rfl, ?_⟩
  · intro t old hname hsheet
    rw [fillStep_hit sheets names inv t hname]
    refine ⟨rfl, ?_⟩
    rw [dictGet_dictSet_self, hsheet]
    rfl
  · intro hname
    rw [fillStep_miss sheets names inv hname]
    refine ⟨rfl, ?_⟩
    rw [dictGet_dictSet_self]
    rfl
  · intro lbl a
    refine ⟨rfl, rfl, ?_⟩
    intro idx h6 h9
    interval_cases idx <;> rfl

/-- Witness for C7 at a concrete workbook state and invoice: the hit
branch appends to the matched sheet, and column 7 of a data row is
blank. -/
theorem fill_step_append_spec_witness :
    (fillStep [("ACME CORP", ⟨COLUMNS, []⟩)] [("acmecorp", "ACME CORP")] demoInvoice).2.2
      = "ACME CORP"
  ∧ dictGet (fillStep [("ACME CORP", ⟨COLUMNS, []⟩)] [("acmecorp", "ACME CORP")]
        demoInvoice).1 "ACME CORP"
      = some ⟨COLUMNS, (⟨COLUMNS, []⟩ : Sheet).rows ++ [sepRow]
          ++ demoInvoice.articles.map (mkRow (invoiceLabel demoInvoice))⟩
  ∧ (mkRow (invoiceLabel demoInvoice) demoArticle).get? 6 = some Cell.blank := by
  have h := fill_step_append_spec [("ACME CORP", ⟨COLUMNS, []⟩)]
    [("acmecorp", "ACME CORP")] demoInvoice
  have h1 := h.1 "ACME CORP" ⟨COLUMNS, []⟩ rfl rfl
  exact ⟨h1.1, h1.2,
    (h.2.2.2.2.2 (invoiceLabel demoInvoice) demoArticle).2.2 6 (by decide) (by decide)⟩

/-- The run resolves exactly one sheet title per invoice. -/
theorem fillLoop_trace_length :
    ∀ (l : List InvoiceDict) (sheets : Workbook) (names : NameMap),
      ((fillLoop sheets names l).2.2).length = l.length := by
  intro l
  induction l with
  | nil => intro sheets names; rfl
  | cons inv rest ih =>
    intro sheets names
    simp only [fillLoop]
    simp [ih]

/-- If the name map maps key `k` to title `v`, then every invoice of
the run whose normalized company name is `k` resolves to `v`, provided
every invoice's sanitized title normalizes back to the invoice's own
key (the hypothesis under which registrations never overwrite `k`). -/
theorem fillTrace_mapped :
    ∀ (l : List InvoiceDict) (sheets : Workbook) (names : NameMap) (k v : String),
      (∀ inv ∈ l, normalize_excel_sheet_name (sanitize_excel_sheet_name inv.company_name)
          = normalize_excel_sheet_name inv.company_name) →
      dictGet names k = some v →
      ∀ i inv', l.get? i = some inv' →
        normalize_excel_sheet_name inv'.company_name = k →
        ((fillLoop sheets names l).2.2).get? i = some v := by
  intro l
  induction l with
  | nil =>
    intro sheets names k v _ _ i inv' hget
    simp at hget
  | cons inv rest ih =>
    intro sheets names k v H hk i inv' hget hkey
    rcases hfound : dictGet names (normalize_excel_sheet_name inv.company_name) with _ | sn
    · cases i with
      | zero =>
        rw [List.get?_cons_zero] at hget
        have hinv := Option.some.inj hget
        subst hinv
        rw [hkey, hk] at hfound
        cases hfound
      | succ i' =>
        rw [List.get?_cons_succ] at hget
        have hkne : normalize_excel_sheet_name inv.company_name ≠ k := by
          intro he
          rw [he, hk] at hfound
          cases hfound
        have hreg := H inv (List.mem_cons_self _ _)
        simp only [fillLoop]
        rw [fillStep_miss _ _ _ hfound]
        simp only [List.get?_cons_succ]
        apply ih _ _ k v (fun x hx => H x (List.mem_cons_of_mem _ hx)) _ i' inv' hget hkey
        rw [hreg, dictGet_dictSet_ne _ _ _ _ hkne]
        exact hk
    · cases i with
      | zero =>
        rw [List.get?_cons_zero] at hget
        have hinv := Option.some.inj hget
        subst hinv
        have hsv : sn = v := by
          have hfound2 := hfound
          rw [hkey, hk] at hfound2
          exact (Option.some.inj hfound2).symm
        simp only [fillLoop]
        rw [fillStep_hit _ _ _ _ hfound]
        simp [hsv]
      | succ i' =>
        rw [List.get?_cons_succ] at hget
        simp only [fillLoop]
        rw [fillStep_hit _ _ _ _ hfound]
        simp only [List.get?_cons_succ]
        exact ih _ _ k v (fun x hx => H x (List.mem_cons_of_mem _ hx)) hk i' inv' hget hkey

/-- Two invoices with the same normalized key, earlier one first,
resolve to the same sheet title, under the no-truncation-drift
hypothesis. -/
theorem fillTrace_same_key_lt :
    ∀ (l : List InvoiceDict) (sheets : Workbook) (names : NameMap),
      (∀ inv ∈ l, normalize_excel_sheet_name (sanitize_excel_sheet_name inv.company_name)
          = normalize_excel_sheet_name inv.company_name) →
      ∀ i j invi invj, l.get? i = some invi → l.get? j = some invj →
        normalize_excel_sheet_name invi.company_name
          = normalize_excel_sheet_name invj.company_name →
        i < j →
        ((fillLoop sheets names l).2.2).get? i = ((fillLoop sheets names l).2.2).get? j := by
  intro l
  induction l with
  | nil =>
    intro sheets names _ i j invi invj hgi
    simp at hgi
  | cons inv rest ih =>
    intro sheets names H i j invi invj hgi hgj hkey hij
    cases j with
    | zero => omega
    | succ j' =>
      cases i with
      | zero =>
        rw [List.get?_cons_zero] at hgi
        have hinv := Option.some.inj hgi
        subst hinv
        rw [List.get?_cons_succ] at hgj
        rcases hfound : dictGet names (normalize_excel_sheet_name inv.company_name) with _ | sn
        · have hreg := H inv (List.mem_cons_self _ _)
          simp only [fillLoop]
          rw [fillStep_miss _ _ _ hfound]
          simp only [List.get?_cons_zero, List.get?_cons_succ]
          have hmap := fillTrace_mapped rest
            (dictSet sheets (sanitize_excel_sheet_name inv.company_name)
              (mkDf ⟨COLUMNS, []⟩ inv))
            (dictSet names
              (normalize_excel_sheet_name (sanitize_excel_sheet_name inv.company_name))
              (sanitize_excel_sheet_name inv.company_name))
            (normalize_excel_sheet_name inv.company_name)
            (sanitize_excel_sheet_name inv.company_name)
            (fun x hx => H x (List.mem_cons_of_mem _ hx))
            (by rw [hreg]; exact dictGet_dictSet_self _ _ _)
            j' invj hgj hkey.symm
          exact hmap.symm
        · simp only [fillLoop]
          rw [fillStep_hit _ _ _ _ hfound]
          simp only [List.get?_cons_zero, List.get?_cons_succ]
          have hmap := fillTrace_mapped rest
            (dictSet sheets sn (mkDf (withCols ((dictGet sheets sn).getD ⟨COLUMNS, []⟩)) inv))
            names
            (normalize_excel_sheet_name inv.company_name) sn
            (fun x hx => H x (List.mem_cons_of_mem _ hx))
            hfound j' invj hgj hkey.symm
          exact hmap.symm
      | succ i' =>
        rw [List.get?_cons_succ] at hgi
        rw [List.get?_cons_succ] at hgj
        simp only [fillLoop]
        simp only [List.get?_cons_succ]
        exact ih _ _ (fun x hx => H x (List.mem_cons_of_mem _ hx)) i' j' invi invj hgi hgj
          hkey (by omega)

/-- Amended claim C1: any two invoices of a run whose company names
normalize to the same key resolve to the same worksheet title,
provided the sanitized title of every company name in the run
normalizes back to the name's own key (in particular, whenever no
company name is changed by the 31-character truncation). Without that
proviso the property fails, see the counterexample. -/
theorem same_key_same_sheet (initial : Workbook) (invoices : List InvoiceDict)
    (H : ∀ inv ∈ invoices,
        normalize_excel_sheet_name (sanitize_excel_sheet_name inv.company_name)
          = normalize_excel_sheet_name inv.company_name)
    (i j : Nat) (invi invj : InvoiceDict)
    (hgi : invoices.get? i = some invi) (hgj : invoices.get? j = some invj)
    (hkey : normalize_excel_sheet_name invi.company_name
        = normalize_excel_sheet_name invj.company_name) :
    (fillTrace invoices initial).length = invoices.length
  ∧ (fillTrace invoices initial).get? i = (fillTrace invoices initial).get? j := by
  refine ⟨fillLoop_trace_length invoices initial (initNames initial), ?_⟩
  rcases Nat.lt_trichotomy i j with h | h | h
  · exact fillTrace_same_key_lt invoices initial (initNames initial) H i j invi invj
      hgi hgj hkey h
  · rw [h]
  · exact (fillTrace_same_key_lt invoices initial (initNames initial) H j i invj invi
      hgj hgi hkey.symm h).symm

/-- Witness for the amended C1: two accent/case variants of the same
short company name resolve to the same worksheet title. -/
theorem same_key_same_sheet_witness :
    (fillTrace [⟨"Société Générale", ⟨"F1", "03/14/2024"⟩, []⟩,
                ⟨"SOCIETE GENERALE", ⟨"F2", "03/15/2024"⟩, []⟩] []).length = 2
  ∧ (fillTrace [⟨"Société Générale", ⟨"F1", "03/14/2024"⟩, []⟩,
                ⟨"SOCIETE GENERALE", ⟨"F2", "03/15/2024"⟩, []⟩] []).get? 0
      = (fillTrace [⟨"Société Générale", ⟨"F1", "03/14/2024"⟩, []⟩,
                    ⟨"SOCIETE GENERALE", ⟨"F2", "03/15/2024"⟩, []⟩] []).get? 1 :=
  same_key_same_sheet []
    [⟨"Société Générale", ⟨"F1", "03/14/2024"⟩, []⟩,
     ⟨"SOCIETE GENERALE", ⟨"F2", "03/15/2024"⟩, []⟩]
    (by decide) 0 1
    ⟨"Société Générale", ⟨"F1", "03/14/2024"⟩, []⟩
    ⟨"SOCIETE GENERALE", ⟨"F2", "03/15/2024"⟩, []⟩
    rfl rfl rfl

/-- Counterexample to claim C1 as stated: two company names longer than
the 31-character cap that normalize to the same key (thirty `a`s then
`b`, with and without a space) resolve to two different worksheet
titles in one run over an empty workbook, and the final workbook holds
two sheets for that single normalized key. -/
theorem same_key_two_sheets_counterexample :
    normalize_excel_sheet_name "aaaaaaaaaaaaaaaaaaaaaaaaaaaaaa b"
      = normalize_excel_sheet_name "aaaaaaaaaaaaaaaaaaaaaaaaaaaaaab"
  ∧ fillTrace [⟨"aaaaaaaaaaaaaaaaaaaaaaaaaaaaaa b", ⟨"F1", "03/14/2024"⟩, []⟩,
               ⟨"aaaaaaaaaaaaaaaaaaaaaaaaaaaaaab", ⟨"F2", "03/15/2024"⟩, []⟩] []
      = ["AAAAAAAAAAAAAAAAAAAAAAAAAAAAAA ", "AAAAAAAAAAAAAAAAAAAAAAAAAAAAAAB"]
  ∧ ("AAAAAAAAAAAAAAAAAAAAAAAAAAAAAA " : String) ≠ "AAAAAAAAAAAAAAAAAAAAAAAAAAAAAAB"
  ∧ (fill_excel_file [⟨"aaaaaaaaaaaaaaaaaaaaaaaaaaaaaa b", ⟨"F1", "03/14/2024"⟩, []⟩,
                      ⟨"aaaaaaaaaaaaaaaaaaaaaaaaaaaaaab", ⟨"F2", "03/15/2024"⟩, []⟩]
       []).length = 2 :=
  ⟨rfl, rfl, by decide, rfl⟩

/-- Registering a title under its own normalized key preserves the
name-map invariant. -/
theorem namesNormalized_dictSet (names : NameMap) (t : String)
    (h : namesNormalized names) :
    namesNormalized (dictSet names (normalize_excel_sheet_name t) t) := by
  intro k v hkv
  by_cases hk : k = normalize_excel_sheet_name t
  · subst hk
    rw [dictGet_dictSet_self] at hkv
    rw [← Option.some.inj hkv]
  · rw [dictGet_dictSet_ne _ _ _ _ (fun he => hk he.symm)] at hkv
    exact h k v hkv

/-- The name map built from the loaded workbook satisfies the
invariant. -/
theorem namesNormalized_init (initial : Workbook) :
    namesNormalized (initNames initial) := by
  have hgen : ∀ (l : Workbook) (m : NameMap), namesNormalized m →
      namesNormalized
        (l.foldl (fun m p => dictSet m (normalize_excel_sheet_name p.1) p.1) m) := by
    intro l
    induction l with
    | nil => intro m hm; exact hm
    | cons p rest ih =>
      intro m hm
      exact ih _ (namesNormalized_dictSet m p.1 hm)
  exact hgen initial [] (fun k v hkv => by cases hkv)

/-- One invoice leaves a sheet untouched when its company name neither
normalizes to the sheet's normalized title nor sanitizes to the
sheet's exact title; the name-map invariant is preserved. -/
theorem untouched_step (sheets : Workbook) (names : NameMap) (inv : InvoiceDict)
    (t : String) (sheet : Sheet)
    (hinv : namesNormalized names)
    (ht : dictGet sheets t = some sheet)
    (h1 : normalize_excel_sheet_name inv.company_name ≠ normalize_excel_sheet_name t)
    (h2 : sanitize_excel_sheet_name inv.company_name ≠ t) :
    namesNormalized (fillStep sheets names inv).2.1
  ∧ dictGet (fillStep sheets names inv).1 t = some sheet := by
  rcases hfound : dictGet names (normalize_excel_sheet_name inv.company_name) with _ | sn
  · rw [fillStep_miss _ _ _ hfound]
    constructor
    · exact namesNormalized_dictSet names (sanitize_excel_sheet_name inv.company_name) hinv
    · show dictGet (dictSet sheets (sanitize_excel_sheet_name inv.company_name) _) t
        = some sheet
      rw [dictGet_dictSet_ne _ _ _ _ h2]
      exact ht
  · rw [fillStep_hit _ _ _ _ hfound]
    constructor
    · exact hinv
    · have hkey := hinv _ _ hfound
      have hsn : sn ≠ t := by
        intro he
        rw [he] at hkey
        exact h1 hkey
      show dictGet (dictSet sheets sn _) t = some sheet
      rw [dictGet_dictSet_ne _ _ _ _ hsn]
      exact ht

/-- The whole invoice loop leaves such a sheet untouched. -/
theorem untouched_loop :
    ∀ (l : List InvoiceDict) (sheets : Workbook) (names : NameMap) (t : String)
      (sheet : Sheet),
      namesNormalized names →
      dictGet sheets t = some sheet →
      (∀ inv ∈ l,
          normalize_excel_sheet_name inv.company_name ≠ normalize_excel_sheet_name t
        ∧ sanitize_excel_sheet_name inv.company_name ≠ t) →
      dictGet (fillLoop sheets names l).1 t = some sheet := by
  intro l
  induction l with
  | nil => intro sheets names t sheet _ ht _; exact ht
  | cons inv rest ih =>
    intro sheets names t sheet hinv ht H
    have hstep := untouched_step sheets names inv t sheet hinv ht
      (H inv (List.mem_cons_self _ _)).1 (H inv (List.mem_cons_self _ _)).2
    simp only [fillLoop]
    exact ih _ _ t sheet hstep.1 hstep.2 (fun x hx => H x (List.mem_cons_of_mem _ hx))

/-- Amended claim C10: every sheet of the input workbook whose
normalized title matches no processed invoice's normalized company
name, and whose exact title equals no invoice's sanitized company
name, is carried into the output workbook unchanged (rows and header).
The extra sanitized-title condition is forced by the counterexample:
a truncated sanitized name can clobber an existing sheet whose
normalized name matches no invoice. -/
theorem untouched_sheets_preserved (initial : Workbook) (invoices : List InvoiceDict)
    (t : String) (sheet : Sheet)
    (ht : dictGet initial t = some sheet)
    (H : ∀ inv ∈ invoices,
        normalize_excel_sheet_name inv.company_name ≠ normalize_excel_sheet_name t
      ∧ sanitize_excel_sheet_name inv.company_name ≠ t) :
    dictGet (fill_excel_file invoices initial) t = some sheet :=
  untouched_loop invoices initial (initNames initial) t sheet
    (namesNormalized_init initial) ht H

/-- Witness for the amended C10: a supplier sheet unrelated to the
single processed invoice is carried through verbatim. -/
theorem untouched_sheets_preserved_witness :
    dictGet (fill_excel_file [⟨"ACME Corp", ⟨"F1", "03/14/2024"⟩, []⟩]
        [("FOURNISSEUR", ⟨COLUMNS, [[Cell.s "KEEP"]]⟩)]) "FOURNISSEUR"
      = some ⟨COLUMNS, [[Cell.s "KEEP"]]⟩ :=
  untouched_sheets_preserved [("FOURNISSEUR", ⟨COLUMNS, [[Cell.s "KEEP"]]⟩)]
    [⟨"ACME Corp", ⟨"F1", "03/14/2024"⟩, []⟩] "FOURNISSEUR"
    ⟨COLUMNS, [[Cell.s "KEEP"]]⟩ rfl (by decide)

/-- Counterexample to claim C10 as stated: an existing sheet titled
with 31 `A`s has normalized name (31 `a`s) matching no invoice — the
only invoice's company name is 32 `a`s — yet the run overwrites that
sheet, because the 32-`a` name misses the name map and its sanitized
title truncates to exactly the existing sheet's title; the sheet's
original row is lost rather than carried through verbatim. -/
theorem untouched_sheet_overwritten_counterexample :
    normalize_excel_sheet_name "aaaaaaaaaaaaaaaaaaaaaaaaaaaaaaaa"
      ≠ normalize_excel_sheet_name "AAAAAAAAAAAAAAAAAAAAAAAAAAAAAAA"
  ∧ dictGet (fill_excel_file [⟨"aaaaaaaaaaaaaaaaaaaaaaaaaaaaaaaa", ⟨"F1", "03/14/2024"⟩, []⟩]
        [("AAAAAAAAAAAAAAAAAAAAAAAAAAAAAAA", ⟨COLUMNS, [[Cell.s "KEEP"]]⟩)])
        "AAAAAAAAAAAAAAAAAAAAAAAAAAAAAAA"
      = some ⟨COLUMNS, [sepRow]⟩
  ∧ (⟨COLUMNS, [sepRow]⟩ : Sheet) ≠ ⟨COLUMNS, [[Cell.s "KEEP"]]⟩ := by
  refine ⟨by decide, rfl, by decide⟩
